import Mathlib

/-!
Verification of the opencode-claw streaming core against its specification.

The definitions below are a shallow embedding of the TypeScript sources:
- `src/sessions/manager.ts` (`buildSessionKey`, the streaming prompt engine
  `promptStreaming`),
- `src/channels/split-message.ts` (`parseCommand`, `handleCommand`,
  `routeMessage`, `createRouter`).

JavaScript `Map`s are modelled as insertion-ordered association lists,
asynchronous callbacks as explicit action lists, and the global event
subscription as a list of timestamped events consumed in order.
-/

namespace OpencodeClaw

/-! ## Association lists modelling JavaScript `Map` (insertion ordered) -/

/-- `Map.set`: replace in place when the key is present, otherwise append
(JavaScript Maps keep the original position of an updated key). -/
def setKV {α : Type} : List (String × α) → String → α → List (String × α)
  | [], k, v => [(k, v)]
  | (k0, v0) :: rest, k, v =>
      if k0 = k then (k, v) :: rest else (k0, v0) :: setKV rest k v

/-- `Map.get`: first binding of the key, if any. -/
def getKV {α : Type} : List (String × α) → String → Option α
  | [], _ => none
  | (k0, v0) :: rest, k => if k0 = k then some v0 else getKV rest k

/-- `Map.delete`: remove the binding of the key (keys are unique in a Map). -/
def eraseKV {α : Type} : List (String × α) → String → List (String × α)
  | [], _ => []
  | (k0, v0) :: rest, k => if k0 = k then rest else (k0, v0) :: eraseKV rest k

/-! ## Event model (`@opencode-ai/sdk` events consumed by `promptStreaming`) -/

/-- Status field of a tool part's state. -/
inductive ToolStatus
  | pending
  | running
  | completed
  | errored
deriving DecidableEq, Repr

/-- The `state` object of a tool part: status plus the optional `title`
field (`"title" in part.state` is modelled by the option being `some`). -/
structure ToolState where
  status : ToolStatus
  title : Option String
deriving DecidableEq, Repr

/-- A message part carried by a `message.part.updated` event. -/
inductive MsgPart
  | text (sessionID : String) (id : String) (text : String)
  | tool (sessionID : String) (id : String) (callID : String) (tool : String)
      (state : ToolState)
  | otherPart (sessionID : String)
deriving DecidableEq, Repr

/-- One entry of a `question.asked` request's `questions` array. -/
structure QuestionInfo where
  header : Option String
  question : String
  options : List (String × Option String)
  multiple : Bool
deriving DecidableEq, Repr

/-- Payload of a `question.asked` event. -/
structure QuestionReq where
  sessionID : String
  id : String
  questions : List QuestionInfo
deriving DecidableEq, Repr

/-- One agent todo item (passed through to `onTodoUpdated`). -/
structure Todo where
  content : String
  status : String
  priority : String
deriving DecidableEq, Repr

/-- Payload of a `session.error` event's `error` field: the optional `name`
property and the optional `data.message` string. -/
structure SessionErrorInfo where
  name : Option String
  dataMessage : Option String
deriving DecidableEq, Repr

/-- The discriminated union of events the engine inspects.  `session.error`
may arrive without a session id, in which case it applies to every engine. -/
inductive Event
  | partDelta (sessionID : String) (partID : String) (delta : String)
  | partUpdated (part : MsgPart)
  | questionAsked (req : QuestionReq)
  | todoUpdated (sessionID : String) (todos : List Todo)
  | sessionError (sessionID : Option String) (error : Option SessionErrorInfo)
  | sessionIdle (sessionID : String)
  | otherEvent
deriving DecidableEq, Repr

/-- An event together with the `Date.now()` instant at which the engine
dequeues it from the subscription. -/
structure TimedEvent where
  time : Nat
  ev : Event
deriving DecidableEq, Repr

/-! ## Streaming prompt engine (`promptStreaming` in `src/sessions/manager.ts`) -/

/-- The `progress` options bundle.  Presence of the `onToolRunning`,
`onHeartbeat` and `onTodoUpdated` callbacks is what the engine branches on,
so they are modelled as booleans and their effects as emitted actions; the
`onQuestion` callback returns answers or throws, so it is modelled as a
function into `Except`. -/
structure ProgressOptions where
  onToolRunning : Bool := false
  onHeartbeat : Bool := false
  onQuestion : Option (QuestionReq → Except Unit (List (List String))) := none
  onTodoUpdated : Bool := false
  toolThrottleMs : Option Int := none
  heartbeatMs : Option Int := none

/-- The engine configuration after defaulting (`?? 5_000` / `?? 60_000`). -/
structure EngineCfg where
  onToolRunning : Bool
  onQuestion : Option (QuestionReq → Except Unit (List (List String)))
  onTodoUpdated : Bool
  toolThrottleMs : Int
  heartbeatMs : Int

/-- Resolve the optional progress bundle exactly as `promptStreaming` does. -/
def cfgOf (progress : Option ProgressOptions) : EngineCfg where
  onToolRunning := (progress.map (·.onToolRunning)).getD false
  onQuestion := progress.bind (·.onQuestion)
  onTodoUpdated := (progress.map (·.onTodoUpdated)).getD false
  toolThrottleMs := (progress.bind (·.toolThrottleMs)).getD 5000
  heartbeatMs := (progress.bind (·.heartbeatMs)).getD 60000

/-- The engine's mutable locals: `textParts`, `notifiedTools`,
`lastToolNotifyTime` and `lastActivityTime`. -/
structure EngineState where
  textParts : List (String × String)
  notifiedTools : List String
  lastToolNotifyTime : Int
  lastActivityTime : Nat
deriving DecidableEq, Repr

/-- Initial engine state: empty maps, `lastToolNotifyTime = 0`,
`lastActivityTime = Date.now()` at subscription time. -/
def initEngineState (t0 : Nat) : EngineState :=
  { textParts := [], notifiedTools := [], lastToolNotifyTime := 0,
    lastActivityTime := t0 }

/-- Externally visible effects of one engine run, in order of occurrence. -/
inductive EngAction
  | toolNotify (time : Nat) (callID : String) (tool : String) (title : String)
  | questionReply (requestID : String) (answers : List (List String))
  | questionReject (requestID : String)
  | todoNotify (todos : List Todo)
deriving DecidableEq, Repr

/-- Terminal outcome of one engine run, mirroring the failure taxonomy:
normal return, thrown `"timeout"`, thrown `"aborted"`, or a generic thrown
error message. -/
inductive Outcome
  | ok (text : String)
  | timeout
  | aborted
  | failed (msg : String)
deriving DecidableEq, Repr

/-- `[...textParts.values()].join("")`. -/
def joinedText (st : EngineState) : String :=
  String.intercalate "" (st.textParts.map Prod.snd)

/-- Result of handling one event: continue consuming, or finish the run. -/
inductive StepResult
  | next (st : EngineState) (acts : List EngAction)
  | done (o : Outcome) (acts : List EngAction)

/-- The `session.error` terminal branch: `MessageAbortedError` becomes the
aborted outcome, anything else a generic failure with the extracted message. -/
def sessionErrorResult (err : Option SessionErrorInfo) : StepResult :=
  match err with
  | some info =>
      if info.name = some "MessageAbortedError" then .done .aborted []
      else .done (.failed (info.dataMessage.getD "unknown session error")) []
  | none => .done (.failed "unknown session error") []

/-- Truthy `title` selection: `part.state.title ? part.state.title : part.tool`. -/
def toolTitle (state : ToolState) (tool : String) : String :=
  match state.title with
  | some t => if t ≠ "" then t else tool
  | none => tool

/-- One iteration of the engine's `for await` body (after the abort check),
translated branch by branch from `promptStreaming`. -/
def stepEvent (sessionId : String) (cfg : EngineCfg) (st : EngineState)
    (e : TimedEvent) : StepResult :=
  match e.ev with
  | .partDelta sid partID delta =>
      if sid ≠ sessionId then .next st []
      else
        let prev := (getKV st.textParts partID).getD ""
        .next { st with textParts := setKV st.textParts partID (prev ++ delta) } []
  | .partUpdated p =>
      match p with
      | .text sid id txt =>
          if sid ≠ sessionId then .next st []
          else if txt ≠ "" then
            .next { st with textParts := setKV st.textParts id txt } []
          else .next st []
      | .tool sid _id callID tool tstate =>
          if sid ≠ sessionId then .next st []
          else if tstate.status = .running ∧ cfg.onToolRunning = true then
            if callID ∉ st.notifiedTools ∧
                cfg.toolThrottleMs ≤ (e.time : Int) - st.lastToolNotifyTime then
              .next { st with
                        notifiedTools := callID :: st.notifiedTools,
                        lastToolNotifyTime := (e.time : Int),
                        lastActivityTime := e.time }
                [.toolNotify e.time callID tool (toolTitle tstate tool)]
            else .next st []
          else .next st []
      | .otherPart _ => .next st []
  | .questionAsked req =>
      if req.sessionID ≠ sessionId then .next st []
      else
        match cfg.onQuestion with
        | some f =>
            match f req with
            | .ok answers =>
                .next { st with lastActivityTime := e.time }
                  [.questionReply req.id answers]
            | .error _ => .next st [.questionReject req.id]
        | none => .next st [.questionReject req.id]
  | .todoUpdated sid todos =>
      if sid ≠ sessionId then .next st []
      else if cfg.onTodoUpdated then
        .next { st with lastActivityTime := e.time } [.todoNotify todos]
      else .next st []
  | .sessionError sOpt err =>
      match sOpt with
      | some s =>
          if s ≠ "" ∧ s ≠ sessionId then .next st []
          else sessionErrorResult err
      | none => sessionErrorResult err
  | .sessionIdle sid =>
      if sid ≠ sessionId then .next st []
      else .done (.ok (joinedText st)) []
  | .otherEvent => .next st []

/-- The engine's consumption loop.  `deadline` is the absolute instant at
which the `setTimeout(() => controller.abort(), timeoutMs)` fires; the
aborted flag is observed at the top of each iteration, when the next event is
dequeued.  The real subscription never ends by itself; exhausting the list
models the stream closing, which the source treats as a normal loop exit
returning the accumulated text. -/
def runEngine (sessionId : String) (deadline : Nat) (cfg : EngineCfg) :
    List TimedEvent → EngineState → List EngAction → Outcome × List EngAction
  | [], st, acts => (.ok (joinedText st), acts)
  | e :: rest, st, acts =>
      if deadline ≤ e.time then (.timeout, acts)
      else
        match stepEvent sessionId cfg st e with
        | .next st2 newActs => runEngine sessionId deadline cfg rest st2 (acts ++ newActs)
        | .done o newActs => (o, acts ++ newActs)

/-- `promptStreaming(client, sessionId, promptText, timeoutMs, logger,
progress)` as a function of the event sequence.  `t0` is `Date.now()` at
subscription time, so the timeout deadline is `t0 + timeoutMs`.  The
heartbeat interval timer is wall-clock driven, not event driven, and is not
part of this event fold. -/
def promptStreaming (sessionId : String) (_promptText : String)
    (timeoutMs : Nat) (progress : Option ProgressOptions) (t0 : Nat)
    (evs : List TimedEvent) : Outcome × List EngAction :=
  runEngine sessionId (t0 + timeoutMs) (cfgOf progress) evs (initEngineState t0) []

/-! ## Session key resolver (`buildSessionKey` in `src/sessions/manager.ts`) -/

/-- `buildSessionKey(channel, peerId, threadId?)`.  The `if (threadId)` test
is JavaScript truthiness, so an empty-string thread id behaves like an
absent one. -/
def buildSessionKey (channel : String) (peerId : String)
    (threadId : Option String) : String :=
  let base := "opencode-claw:" ++ channel ++ ":" ++ peerId
  match threadId with
  | some t => if t ≠ "" then base ++ ":thread:" ++ t else base
  | none => base

/-! ## Channel and message model (`src/channels/types.ts`) -/

/-- `ChannelId = "slack" | "telegram" | "whatsapp"`. -/
inductive ChannelId
  | slack
  | telegram
  | whatsapp
deriving DecidableEq, Repr, Fintype

/-- The string value of a channel id literal. -/
def channelIdStr : ChannelId → String
  | .slack => "slack"
  | .telegram => "telegram"
  | .whatsapp => "whatsapp"

/-- Inbound message fields the router reads. -/
structure InboundMessage where
  channel : ChannelId
  peerId : String
  senderId : Option String := none
  text : String
  threadId : Option String := none
  replyToId : Option String := none
deriving DecidableEq, Repr

/-- `OutboundMessage = { text, threadId?, replyToId? }`. -/
structure OutboundMessage where
  text : String
  threadId : Option String := none
  replyToId : Option String := none
deriving DecidableEq, Repr

/-! ## Router helpers (`src/channels/split-message.ts`) -/

/-- `peerKey(channel, peerId)`: the key of the active-turn and
pending-question maps. -/
def peerKey (channel : ChannelId) (peerId : String) : String :=
  channelIdStr channel ++ ":" ++ peerId

/-- The thread id used for session binding: omitted unconditionally for
Slack, passed through otherwise (`msg.channel === "slack" ? undefined :
msg.threadId`, identical at both use sites). -/
def sessionThreadId (msg : InboundMessage) : Option String :=
  if msg.channel = .slack then none else msg.threadId

/-- The conversation key a message binds to, as computed in both
`handleCommand` and `routeMessage`. -/
def conversationKey (msg : InboundMessage) : String :=
  buildSessionKey (channelIdStr msg.channel) msg.peerId (sessionThreadId msg)

/-- A parsed slash-command. -/
structure Command where
  name : String
  args : String
deriving DecidableEq, Repr

/-- Whitespace trim on both ends, at the character-list level. -/
def trimList (cs : List Char) : List Char :=
  ((cs.dropWhile Char.isWhitespace).reverse.dropWhile Char.isWhitespace).reverse

/-- Split a character list at the first space, mirroring
`trimmed.indexOf(" ")`. -/
def breakAtSpace : List Char → List Char × Option (List Char)
  | [] => ([], none)
  | c :: cs =>
      if c = ' ' then ([], some cs)
      else
        let r := breakAtSpace cs
        (c :: r.1, r.2)

/-- `parseCommand(text)`: trimmed text starting with `/`; name up to the
first space, lower-cased; remainder trimmed. -/
def parseCommand (text : String) : Option Command :=
  match trimList text.toList with
  | '/' :: body =>
      match breakAtSpace body with
      | (name, none) => some ⟨String.mk (name.map Char.toLower), ""⟩
      | (name, some rest) =>
          some ⟨String.mk (name.map Char.toLower), String.mk (trimList rest)⟩
  | _ => none

/-! ## The `/sessions` command (`case "sessions"` in `handleCommand`) -/

/-- One session as listed by the session manager. -/
structure SessionInfo where
  id : String
  key : String
  title : String
  active : Bool
deriving DecidableEq, Repr

/-- `Number.parseInt` on an already-trimmed argument: optional sign, then
either a `0x`/`0X` hexadecimal literal or a longest decimal-digit run;
`none` models `NaN`. -/
def parseIntJS (s : String) : Option Int :=
  let cs := s.toList.dropWhile Char.isWhitespace
  let signAndRest : Int × List Char :=
    match cs with
    | '-' :: r => (-1, r)
    | '+' :: r => (1, r)
    | r => (1, r)
  let sign := signAndRest.1
  let rest := signAndRest.2
  match rest with
  | '0' :: x :: r =>
      if x = 'x' ∨ x = 'X' then
        let hs := r.takeWhile (fun c => c.isDigit ∨ ('a' ≤ c ∧ c ≤ 'f') ∨ ('A' ≤ c ∧ c ≤ 'F'))
        if hs = [] then none
        else some (sign * (hs.foldl (fun acc c =>
          acc * 16 + (if c.isDigit then (c.toNat - 48)
                      else if 'a' ≤ c then c.toNat - 87 else c.toNat - 55)) 0 : Nat))
      else
        let ds := rest.takeWhile Char.isDigit
        some (sign * (ds.foldl (fun acc c => acc * 10 + (c.toNat - 48)) 0 : Nat))
  | _ =>
      let ds := rest.takeWhile Char.isDigit
      if ds = [] then none
      else some (sign * (ds.foldl (fun acc c => acc * 10 + (c.toNat - 48)) 0 : Nat))

/-- `PAGE_SIZE = 10`. -/
def PAGE_SIZE : Nat := 10

/-- One listing line: `• <id> — <title>[ (active)]`. -/
def sessionLine (s : SessionInfo) : String :=
  "• " ++ s.id ++ " — " ++ s.title ++ (if s.active then " (active)" else "")

/-- `Math.max(1, Number.parseInt(cmd.args) || 1)`: `|| 1` replaces both
`NaN` and `0` (and `-0`) by 1. -/
def sessionsPageArg (args : String) : Int :=
  max 1 (match parseIntJS args with
         | none => 1
         | some v => if v = 0 then 1 else v)

/-- `Math.ceil(list.length / PAGE_SIZE)`. -/
def sessionsTotalPages (n : Nat) : Nat := (n + PAGE_SIZE - 1) / PAGE_SIZE

/-- `Math.min(page, totalPages)` (a positive number, returned as `Nat`). -/
def sessionsClamped (args : String) (total : Nat) : Nat :=
  (min (sessionsPageArg args) (total : Int)).toNat

/-- The multi-page footer line: `\nPage X/Y` plus the next-page hint when a
next page exists. -/
def sessionsFooterLine (clamped total : Nat) : String :=
  "\nPage " ++ toString clamped ++ "/" ++ toString total ++
    (if clamped < total then
      " — use /sessions " ++ toString (clamped + 1) ++ " for next"
    else "")

/-- The `case "sessions"` branch of `handleCommand`, as a function of the
fetched session list and the raw argument string. -/
def handleSessionsCmd (list : List SessionInfo) (args : String) : String :=
  if list.length = 0 then "No sessions found."
  else
    let totalPages := sessionsTotalPages list.length
    let clamped := sessionsClamped args totalPages
    let slice := (list.drop ((clamped - 1) * PAGE_SIZE)).take PAGE_SIZE
    let lines := slice.map sessionLine
    let withFooter :=
      if totalPages > 1 then lines ++ [sessionsFooterLine clamped totalPages]
      else lines
    String.intercalate "\n" withFooter

/-- The page number §4.4 asks for: the parsed argument, defaulting to 1
when non-numeric, then clamped into the valid 1-based page range. -/
def specClampedPage (args : String) (total : Nat) : Nat :=
  (max 1 (min ((parseIntJS args).getD 1) (total : Int))).toNat

/-- The items of 1-based page `c` at page size 10: the first `10·c` items
minus the ones on earlier pages. -/
def specPageItems (list : List SessionInfo) (c : Nat) : List SessionInfo :=
  (list.take (c * 10)).drop ((c - 1) * 10)

/-- The `Page X/Y` footer §4.4 describes, hint only when a next page
exists. -/
def specFooterLine (clamped total : Nat) : String :=
  "\nPage " ++ toString clamped ++ "/" ++ toString total ++
    (if clamped < total then
      " — use /sessions " ++ toString (clamped + 1) ++ " for next"
    else "")

/-- The `/sessions` reply as §4.4 of the spec words it: page size 10,
1-indexed pages, the requested page clamped into the valid range, items of
the clamped page rendered one per line, a `Page X/Y` footer only when more
than one page exists, a next-page hint only when a next page exists, and a
fixed reply for an empty list.  Written independently of
`handleSessionsCmd` to state the refinement. -/
def sessionsReplySpec (list : List SessionInfo) (args : String) : String :=
  if list.isEmpty then "No sessions found."
  else
    let totalPages := (list.length + 9) / 10
    let clamped := specClampedPage args totalPages
    let lines := (specPageItems list clamped).map sessionLine
    let footer : List String :=
      if totalPages > 1 then [specFooterLine clamped totalPages] else []
    String.intercalate "\n" (lines ++ footer)

/-! ## Router state machine (`routeMessage` / `createRouter`) -/

/-- Metadata tracked per active stream. -/
structure StreamMeta where
  startedAt : Nat
  lastTool : Option String
deriving DecidableEq, Repr

/-- The three maps owned by `createRouter`: `activeStreams`,
`activeStreamsMeta` and `pendingQuestions`.  A pending-question resolver is
represented by the numeric handle of its timeout. -/
structure RouterState where
  activeStreams : List (String × String)
  activeStreamsMeta : List (String × StreamMeta)
  pendingQuestions : List (String × Nat)
deriving DecidableEq, Repr

/-- Fresh router state. -/
def initRouterState : RouterState :=
  { activeStreams := [], activeStreamsMeta := [], pendingQuestions := [] }

/-- Environment of the router: adapter capabilities, allowlist
configuration, and the session store.  `commandReply` abstracts
`handleCommand`'s reply (its `/sessions` branch is embedded concretely as
`handleSessionsCmd`); `resolveSessionId` abstracts
`sessions.resolveSession`. -/
structure RouterEnv where
  hasAdapter : ChannelId → Bool
  hasSendTyping : ChannelId → Bool
  hasStopTyping : ChannelId → Bool
  allowlist : ChannelId → Option (List String)
  rejectionReplies : ChannelId → Bool
  resolveSessionId : String → String
  commandReply : Command → InboundMessage → RouterState → String

/-- `checkAllowlist`: permitted when no list is configured or the list is
empty; otherwise the sender id (falling back to the peer id) must be
listed. -/
def checkAllowlist (env : RouterEnv) (msg : InboundMessage) : Bool :=
  match env.allowlist msg.channel with
  | none => true
  | some list =>
      if list.isEmpty then true else list.contains (msg.senderId.getD msg.peerId)

/-- Externally visible router effects. -/
inductive RouterAction
  | clearQuestionTimeout (handle : Nat)
  | resolveQuestion (pk : String) (text : String)
  | send (peerId : String) (msg : OutboundMessage)
  | sendTyping (peerId : String)
  | stopTyping (peerId : String)
  | startTurn (pk : String) (sessionId : String) (promptText : String)
deriving DecidableEq, Repr

/-- `createRouter`'s `handler` for one inbound message, up to the point
where the streaming engine is invoked (modelled by the `startTurn` action):
pending-question rendezvous first, then adapter lookup, allowlist check,
command interception, and finally session resolution plus turn start. -/
def handleInbound (env : RouterEnv) (st : RouterState) (msg : InboundMessage)
    (now : Nat) : RouterState × List RouterAction :=
  let pk := peerKey msg.channel msg.peerId
  match getKV st.pendingQuestions pk with
  | some handle =>
      ({ st with pendingQuestions := eraseKV st.pendingQuestions pk },
       [.clearQuestionTimeout handle, .resolveQuestion pk msg.text])
  | none =>
      if env.hasAdapter msg.channel = false then (st, [])
      else if checkAllowlist env msg = false then
        (st,
          if env.rejectionReplies msg.channel then
            [.send msg.peerId ⟨"This assistant is private.", msg.threadId, none⟩]
          else [])
      else
        match parseCommand msg.text with
        | some cmd =>
            (st, [.send msg.peerId
              ⟨env.commandReply cmd msg st, msg.threadId, msg.replyToId⟩])
        | none =>
            let sid := env.resolveSessionId (conversationKey msg)
            ({ st with
                 activeStreams := setKV st.activeStreams pk sid,
                 activeStreamsMeta := setKV st.activeStreamsMeta pk ⟨now, none⟩ },
             (if env.hasSendTyping msg.channel then [.sendTyping msg.peerId] else [])
               ++ [.startTurn pk sid msg.text])

/-- The `finally` block of `routeMessage`: on any turn exit, remove the
active-stream record, its metadata, any still-pending question, and attempt
a best-effort stop-typing. -/
def finishTurn (env : RouterEnv) (st : RouterState) (channel : ChannelId)
    (peerId : String) : RouterState × List RouterAction :=
  let pk := peerKey channel peerId
  ({ activeStreams := eraseKV st.activeStreams pk,
     activeStreamsMeta := eraseKV st.activeStreamsMeta pk,
     pendingQuestions := eraseKV st.pendingQuestions pk },
   if env.hasStopTyping channel then [.stopTyping peerId] else [])

/-- Events observed by the router's shared state: an inbound message, or a
turn reaching its `finally` block. -/
inductive RouterEvent
  | inbound (msg : InboundMessage) (now : Nat)
  | turnDone (channel : ChannelId) (peerId : String)

/-- One router transition. -/
def routerStep (env : RouterEnv) (st : RouterState) :
    RouterEvent → RouterState × List RouterAction
  | .inbound msg now => handleInbound env st msg now
  | .turnDone ch peer => finishTurn env st ch peer

/-- A whole router trace, accumulating actions. -/
def runRouter (env : RouterEnv) :
    RouterState → List RouterEvent → RouterState × List RouterAction
  | st, [] => (st, [])
  | st, e :: rest =>
      let r := routerStep env st e
      let r2 := runRouter env r.1 rest
      (r2.1, r.2 ++ r2.2)

/-- Delivery of the engine outcome back to the peer, from the `try/catch`
around `promptStreaming` in `routeMessage` plus the outer catch-all in
`createRouter`: the final text (or the `(empty response)` placeholder) on
success, the fixed timed-out message on timeout, nothing further on abort,
and the fixed generic failure message on any other error. -/
def deliverOutcome (msg : InboundMessage) :
    Outcome → List (String × OutboundMessage)
  | .ok reply =>
      if reply = "" then [(msg.peerId, ⟨"(empty response)", msg.threadId, none⟩)]
      else [(msg.peerId, ⟨reply, msg.threadId, msg.replyToId⟩)]
  | .timeout =>
      [(msg.peerId,
        ⟨"Request timed out. The agent took too long to respond.",
         msg.threadId, msg.replyToId⟩)]
  | .aborted => []
  | .failed _ =>
      [(msg.peerId, ⟨"An internal error occurred. Please try again.", none, none⟩)]

/-! ## Derived predicates and observers used by the statements -/

/-- Does this event terminate the engine via the `session.idle` branch? -/
def idleHits (sessionId : String) : Event → Bool
  | .sessionIdle sid => if sid = sessionId then true else false
  | _ => false

/-- Does this event reach the `session.error` terminal branch?  An error
without a (truthy) session id applies to every engine. -/
def errorHits (sessionId : String) : Event → Bool
  | .sessionError (some s) _ => if s ≠ "" ∧ s ≠ sessionId then false else true
  | .sessionError none _ => true
  | _ => false

/-- A `message.part.updated` text event for the target session carrying an
empty text (which the engine ignores, by the `part.text` truthiness guard). -/
def emptyTextUpdate (sessionId : String) : Event → Bool
  | .partUpdated (.text sid _ txt) => if sid = sessionId ∧ txt = "" then true else false
  | _ => false

/-- Spec-level per-part text accumulation (§4.2 step 4): each text-update
event is the authoritative value for its part id, each delta appends, and
parts keep the order in which they were first observed. -/
def specUpdateParts (sessionId : String) (e : Event)
    (parts : List (String × String)) : List (String × String) :=
  match e with
  | .partDelta sid partID delta =>
      if sid = sessionId then
        setKV parts partID (((getKV parts partID).getD "") ++ delta)
      else parts
  | .partUpdated (.text sid id txt) =>
      if sid = sessionId then setKV parts id txt else parts
  | _ => parts

/-- The authoritative part values after a sequence of events. -/
def specParts (sessionId : String) (evs : List TimedEvent) :
    List (String × String) :=
  evs.foldl (fun parts e => specUpdateParts sessionId e.ev parts) []

/-- The events consumed strictly before the first matching `session.idle`. -/
def beforeIdle (sessionId : String) (evs : List TimedEvent) : List TimedEvent :=
  evs.takeWhile (fun e => ! idleHits sessionId e.ev)

/-- The `(time, callID)` trace of `onToolRunning` invocations. -/
def toolNotifies : List EngAction → List (Nat × String)
  | [] => []
  | .toolNotify t c _ _ :: rest => (t, c) :: toolNotifies rest
  | _ :: rest => toolNotifies rest

/-- Number of `onQuestion`-success forwards (`client.question.reply`). -/
def questionReplyCount (acts : List EngAction) : Nat :=
  acts.countP fun a => match a with
    | .questionReply _ _ => true
    | _ => false

/-- Number of rejection forwards (`client.question.reject`). -/
def questionRejectCount (acts : List EngAction) : Nat :=
  acts.countP fun a => match a with
    | .questionReject _ => true
    | _ => false

/-- Number of turns started for a given peer key in a router action list. -/
def startTurnCount (pk : String) (acts : List RouterAction) : Nat :=
  acts.countP fun a => match a with
    | .startTurn p _ _ => p == pk
    | _ => false

/-! ## Concrete inputs used by witnesses and counterexamples -/

/-- A list of `n` demo sessions. -/
def demoSessions (n : Nat) : List SessionInfo :=
  (List.range n).map
    (fun i => ⟨"id" ++ toString (i + 1), "k", "t" ++ toString (i + 1), false⟩)

/-- A permissive demo router environment with one fixed session id. -/
def demoEnv : RouterEnv where
  hasAdapter := fun _ => true
  hasSendTyping := fun _ => false
  hasStopTyping := fun _ => false
  allowlist := fun _ => none
  rejectionReplies := fun _ => false
  resolveSessionId := fun _ => "sess-1"
  commandReply := fun _ _ _ => "ok"

/-- First demo message from telegram peer `alice`. -/
def demoMsgA : InboundMessage :=
  { channel := .telegram, peerId := "alice", text := "hello" }

/-- Second demo message from the same peer, sent mid-turn. -/
def demoMsgB : InboundMessage :=
  { channel := .telegram, peerId := "alice", text := "hello again" }

/-- The character suffix a thread id contributes to a session key. -/
def threadSuffix : Option String → List Char
  | some x => if x ≠ "" then ":thread:".data ++ x.data else []
  | none => []

/-! # Theorems -/

/-! ## Supporting lemmas: session keys -/

theorem str_data_append (s t : String) : (s ++ t).data = s.data ++ t.data := rfl

theorem buildSessionKey_data (c p : String) (t : Option String) :
    (buildSessionKey c p t).data =
      "opencode-claw:".data ++ (c.data ++ ':' :: (p.data ++ threadSuffix t)) := by
  cases t with
  | none => simp [buildSessionKey, threadSuffix, str_data_append]
  | some x =>
      by_cases hx : x = ""
      · simp [buildSessionKey, threadSuffix, hx, str_data_append]
      · simp [buildSessionKey, threadSuffix, hx, str_data_append]

theorem append_sep_inj (sep : Char) :
    ∀ (a b r₁ r₂ : List Char), sep ∉ a → sep ∉ b →
      a ++ sep :: r₁ = b ++ sep :: r₂ → a = b ∧ r₁ = r₂ := by
  intro a
  induction a with
  | nil =>
      intro b r₁ r₂ _ hb h
      cases b with
      | nil => simpa using h
      | cons y ys =>
          exfalso
          simp only [List.nil_append, List.cons_append, List.cons.injEq] at h
          exact hb (h.1 ▸ List.mem_cons_self y ys)
  | cons x xs ih =>
      intro b r₁ r₂ ha hb h
      cases b with
      | nil =>
          exfalso
          simp only [List.nil_append, List.cons_append, List.cons.injEq] at h
          exact ha (h.1.symm ▸ List.mem_cons_self x xs)
      | cons y ys =>
          simp only [List.cons_append, List.cons.injEq] at h
          have hxs : sep ∉ xs := fun hm => ha (List.mem_cons_of_mem x hm)
          have hys : sep ∉ ys := fun hm => hb (List.mem_cons_of_mem y hm)
          obtain ⟨h1, h2⟩ := ih ys r₁ r₂ hxs hys h.2
          exact ⟨by rw [h.1, h1], h2⟩

theorem channelIdStr_sep_free (ch : ChannelId) : ':' ∉ (channelIdStr ch).data := by
  cases ch <;> decide

theorem channelIdStr_data_inj (a b : ChannelId)
    (h : (channelIdStr a).data = (channelIdStr b).data) : a = b := by
  revert h
  cases a <;> cases b <;> decide

/-! ## C8: the session key resolver is pure and injective input by input -/

/-- C8: `buildSessionKey` is a pure, deterministic function — identical
inputs yield identical output — and varying any single input that
participates in scoping changes the output: the channel alone, the peer
alone, and (for truthy thread ids, the only ones the source's `if
(threadId)` treats as present) the thread alone are each injective, a
truthy thread id never collides with an absent one, and over the program's
actual channel ids a distinct `(channel, peer)` pair always yields a
distinct key. -/
theorem buildSessionKey_pure_injective :
    (∀ c p t, buildSessionKey c p t = buildSessionKey c p t) ∧
    (∀ c₁ c₂ p t, buildSessionKey c₁ p t = buildSessionKey c₂ p t → c₁ = c₂) ∧
    (∀ c p₁ p₂ t, buildSessionKey c p₁ t = buildSessionKey c p₂ t → p₁ = p₂) ∧
    (∀ c p t₁ t₂, t₁ ≠ "" → t₂ ≠ "" →
      buildSessionKey c p (some t₁) = buildSessionKey c p (some t₂) → t₁ = t₂) ∧
    (∀ c p t, t ≠ "" → buildSessionKey c p (some t) ≠ buildSessionKey c p none) ∧
    (∀ (ch₁ ch₂ : ChannelId) p₁ p₂ t,
      buildSessionKey (channelIdStr ch₁) p₁ t = buildSessionKey (channelIdStr ch₂) p₂ t →
      ch₁ = ch₂ ∧ p₁ = p₂) := by
  refine ⟨fun _ _ _ => rfl, ?_, ?_, ?_, ?_, ?_⟩
  · intro c₁ c₂ p t h
    have hd := congrArg String.data h
    rw [buildSessionKey_data, buildSessionKey_data] at hd
    exact String.ext (List.append_cancel_right (List.append_cancel_left hd))
  · intro c p₁ p₂ t h
    have hd := congrArg String.data h
    rw [buildSessionKey_data, buildSessionKey_data] at hd
    have h1 := List.append_cancel_left (List.append_cancel_left hd)
    have h2 : p₁.data ++ threadSuffix t = p₂.data ++ threadSuffix t := by
      injection h1
    exact String.ext (List.append_cancel_right h2)
  · intro c p t₁ t₂ h₁ h₂ h
    have hd := congrArg String.data h
    rw [buildSessionKey_data, buildSessionKey_data] at hd
    have h1 := List.append_cancel_left (List.append_cancel_left hd)
    have h2 : p.data ++ threadSuffix (some t₁) = p.data ++ threadSuffix (some t₂) := by
      injection h1
    have h3 := List.append_cancel_left h2
    rw [threadSuffix, threadSuffix, if_pos h₁, if_pos h₂] at h3
    exact String.ext (List.append_cancel_left h3)
  · intro c p t ht h
    have hd := congrArg String.data h
    rw [buildSessionKey_data, buildSessionKey_data] at hd
    have hl := congrArg List.length hd
    rw [threadSuffix, threadSuffix, if_pos ht] at hl
    simp only [List.length_append, List.length_cons, List.length_nil] at hl
    omega
  · intro ch₁ ch₂ p₁ p₂ t h
    have hd := congrArg String.data h
    rw [buildSessionKey_data, buildSessionKey_data] at hd
    have h1 := List.append_cancel_left hd
    obtain ⟨hc, hr⟩ := append_sep_inj ':' _ _ _ _
      (channelIdStr_sep_free ch₁) (channelIdStr_sep_free ch₂) h1
    exact ⟨channelIdStr_data_inj ch₁ ch₂ hc,
      String.ext (List.append_cancel_right hr)⟩

/-- C8 witness: concrete instances of the parts of
`buildSessionKey_pure_injective` that carry hypotheses. -/
theorem buildSessionKey_pure_injective_witness :
    ("7" ≠ "" → "9" ≠ "" →
      buildSessionKey "telegram" "alice" (some "7") =
        buildSessionKey "telegram" "alice" (some "9") → "7" = "9") ∧
    buildSessionKey "telegram" "alice" (some "7") ≠
      buildSessionKey "telegram" "alice" none :=
  ⟨buildSessionKey_pure_injective.2.2.2.1 "telegram" "alice" "7" "9",
   buildSessionKey_pure_injective.2.2.2.2.1 "telegram" "alice" "7" (by decide)⟩

/-! ## C10: Slack conversation keys ignore the thread id -/

/-- C10: both `handleCommand` and `routeMessage` compute the conversation
key with the thread id dropped unconditionally for Slack, so any two Slack
messages from the same peer — whatever their thread ids — resolve to the
same session binding key, namely the thread-less key for that peer. -/
theorem slack_conversation_key_ignores_thread (m₁ m₂ : InboundMessage)
    (h₁ : m₁.channel = .slack) (h₂ : m₂.channel = .slack)
    (hp : m₁.peerId = m₂.peerId) :
    conversationKey m₁ = conversationKey m₂ ∧
    conversationKey m₁ = buildSessionKey "slack" m₁.peerId none := by
  unfold conversationKey sessionThreadId
  rw [h₁, h₂, hp]
  simp [channelIdStr]

/-- C10 witness: two Slack messages in different threads share one key. -/
theorem slack_conversation_key_ignores_thread_witness :
    conversationKey
        { channel := .slack, peerId := "bob", text := "a", threadId := some "t1" } =
      conversationKey
        { channel := .slack, peerId := "bob", text := "b", threadId := some "t2" } ∧
    conversationKey
        { channel := .slack, peerId := "bob", text := "a", threadId := some "t1" } =
      buildSessionKey "slack" "bob" none :=
  slack_conversation_key_ignores_thread _ _ rfl rfl rfl

/-! ## C2: a pending question consumes the next inbound message -/

/-- C2: while a pending-question record exists for a peer key, the next
inbound message handled for that peer — whatever its text, slash-commands
included — clears the record and its timeout and resolves the suspended
question with the raw message text; the resulting state and action list
show it is not routed through allowlist, command, or prompt handling. -/
theorem pending_question_consumes_next_message (env : RouterEnv)
    (st : RouterState) (msg : InboundMessage) (now handle : Nat)
    (h : getKV st.pendingQuestions (peerKey msg.channel msg.peerId) = some handle) :
    handleInbound env st msg now =
      ({ st with pendingQuestions :=
           eraseKV st.pendingQuestions (peerKey msg.channel msg.peerId) },
       [.clearQuestionTimeout handle,
        .resolveQuestion (peerKey msg.channel msg.peerId) msg.text]) := by
  unfold handleInbound
  simp only [h]

/-- C2 witness: a pending question for `telegram:alice` swallows a message
whose text parses as the slash-command `/new`. -/
theorem pending_question_consumes_next_message_witness :
    handleInbound demoEnv
        { activeStreams := [], activeStreamsMeta := [],
          pendingQuestions := [("telegram:alice", 3)] }
        { channel := .telegram, peerId := "alice", text := "/new" } 7 =
      ({ activeStreams := [], activeStreamsMeta := [],
         pendingQuestions :=
           eraseKV [("telegram:alice", 3)] (peerKey .telegram "alice") },
       [.clearQuestionTimeout 3,
        .resolveQuestion (peerKey .telegram "alice") "/new"]) :=
  pending_question_consumes_next_message demoEnv _ _ 7 3 (by decide)

/-! ## C6: `/sessions` pagination -/

theorem sessionsTotalPages_eq (n : Nat) : sessionsTotalPages n = (n + 9) / 10 := by
  unfold sessionsTotalPages PAGE_SIZE
  congr 1

theorem specClampedPage_pos (args : String) (T : Nat) :
    1 ≤ specClampedPage args T := by
  unfold specClampedPage
  omega

theorem sessionsClamped_eq_spec (args : String) (T : Nat) (hT : 1 ≤ T) :
    sessionsClamped args T = specClampedPage args T := by
  unfold sessionsClamped specClampedPage sessionsPageArg
  rcases parseIntJS args with _ | v
  · simp only [Option.getD]
    omega
  · simp only [Option.getD]
    by_cases hv : v = 0
    · subst hv
      simp only [if_pos rfl]
      omega
    · rw [if_neg hv]
      omega

theorem slice_eq_spec (list : List SessionInfo) (c : Nat) (hc : 1 ≤ c) :
    (list.drop ((c - 1) * PAGE_SIZE)).take PAGE_SIZE = specPageItems list c := by
  unfold specPageItems PAGE_SIZE
  rw [List.drop_take]
  congr 1
  omega

/-- C6: the `/sessions` reply implements §4.4's pagination contract: it
equals the spec-level rendering (page size 10, 1-indexed, requested page
clamped to the valid range, `Page X/Y` footer only on multi-page output,
next-page hint only when a next page exists, fixed reply on an empty
list); a non-numeric argument behaves exactly like page 1; and an empty
list always yields the fixed "No sessions found." reply. -/
theorem sessions_pagination (list : List SessionInfo) (args : String) :
    handleSessionsCmd list args = sessionsReplySpec list args ∧
    (parseIntJS args = none →
      handleSessionsCmd list args = handleSessionsCmd list "1") ∧
    (list = [] → handleSessionsCmd list args = "No sessions found.") := by
  refine ⟨?_, ?_, ?_⟩
  · cases list with
    | nil => rfl
    | cons a l =>
        have hlen : (a :: l).length ≠ 0 := by simp
        have h1 : 1 ≤ ((a :: l).length + 9) / 10 := by
          have : 1 ≤ (a :: l).length := by simp
          omega
        unfold handleSessionsCmd sessionsReplySpec
        rw [if_neg hlen, if_neg (by simp : ¬((a :: l).isEmpty = true))]
        simp only [sessionsTotalPages_eq, sessionsClamped_eq_spec _ _ h1,
          slice_eq_spec _ _ (specClampedPage_pos _ _)]
        by_cases h2 : ((a :: l).length + 9) / 10 > 1
        · rw [if_pos h2, if_pos h2]
          rfl
        · rw [if_neg h2, if_neg h2, List.append_nil]
  · intro hp
    have hclampOne : ∀ T, sessionsClamped args T = sessionsClamped "1" T := by
      intro T
      unfold sessionsClamped sessionsPageArg
      rw [hp, show parseIntJS "1" = some 1 from by decide]
      simp
    cases list with
    | nil => rfl
    | cons a l =>
        simp only [handleSessionsCmd, hclampOne]
  · intro h
    subst h
    rfl

/-- C6 witness: the spec §8 scenario — `/sessions 2` over a 15-session
list — and a non-numeric argument behaving as page 1. -/
theorem sessions_pagination_witness :
    handleSessionsCmd (demoSessions 15) "2" = sessionsReplySpec (demoSessions 15) "2" ∧
    handleSessionsCmd (demoSessions 15) "abc" = handleSessionsCmd (demoSessions 15) "1" :=
  ⟨(sessions_pagination (demoSessions 15) "2").1,
   (sessions_pagination (demoSessions 15) "abc").2.1 (by decide)⟩

/-! ## Supporting lemmas: association-list keys -/

theorem keys_setKV_sub {α : Type} :
    ∀ (l : List (String × α)) (k x : String) (v : α),
      x ∈ (setKV l k v).map Prod.fst → x = k ∨ x ∈ l.map Prod.fst := by
  intro l
  induction l with
  | nil =>
      intro k x v h
      simp [setKV] at h
      exact Or.inl h
  | cons p rest ih =>
      intro k x v h
      obtain ⟨k0, v0⟩ := p
      simp only [setKV] at h
      by_cases hk : k0 = k
      · rw [if_pos hk] at h
        simp only [List.map_cons, List.mem_cons] at h ⊢
        rcases h with h | h
        · exact Or.inl h
        · exact Or.inr (Or.inr h)
      · rw [if_neg hk] at h
        simp only [List.map_cons, List.mem_cons] at h ⊢
        rcases h with h | h
        · exact Or.inr (Or.inl h)
        · rcases ih k x v h with h2 | h2
          · exact Or.inl h2
          · exact Or.inr (Or.inr h2)

theorem nodup_keys_setKV {α : Type} :
    ∀ (l : List (String × α)) (k : String) (v : α),
      (l.map Prod.fst).Nodup → ((setKV l k v).map Prod.fst).Nodup := by
  intro l
  induction l with
  | nil =>
      intro k v _
      simp [setKV]
  | cons p rest ih =>
      intro k v h
      obtain ⟨k0, v0⟩ := p
      simp only [List.map_cons, List.nodup_cons] at h
      simp only [setKV]
      by_cases hk : k0 = k
      · rw [if_pos hk]
        simp only [List.map_cons, List.nodup_cons]
        exact ⟨hk ▸ h.1, h.2⟩
      · rw [if_neg hk]
        simp only [List.map_cons, List.nodup_cons]
        refine ⟨fun hm => ?_, ih k v h.2⟩
        rcases keys_setKV_sub rest k k0 v hm with h2 | h2
        · exact hk h2
        · exact h.1 h2

theorem eraseKV_sublist {α : Type} :
    ∀ (l : List (String × α)) (k : String), (eraseKV l k).Sublist l := by
  intro l
  induction l with
  | nil => intro k; simp [eraseKV]
  | cons p rest ih =>
      intro k
      obtain ⟨k0, v0⟩ := p
      simp only [eraseKV]
      by_cases hk : k0 = k
      · rw [if_pos hk]
        exact List.sublist_cons_self _ _
      · rw [if_neg hk]
        exact (ih k).cons₂ _

theorem nodup_keys_eraseKV {α : Type} (l : List (String × α)) (k : String)
    (h : (l.map Prod.fst).Nodup) : ((eraseKV l k).map Prod.fst).Nodup :=
  h.sublist ((eraseKV_sublist l k).map Prod.fst)

theorem getKV_setKV_self {α : Type} :
    ∀ (l : List (String × α)) (k : String) (v : α),
      getKV (setKV l k v) k = some v := by
  intro l
  induction l with
  | nil => intro k v; simp [setKV, getKV]
  | cons p rest ih =>
      intro k v
      obtain ⟨k0, v0⟩ := p
      simp only [setKV]
      by_cases hk : k0 = k
      · rw [if_pos hk]
        simp [getKV]
      · rw [if_neg hk]
        simp only [getKV, if_neg hk]
        exact ih k v

/-! ## C4: active-turn tracking per peer key -/

/-- All three router maps have pairwise-distinct keys. -/
def goodKeys (st : RouterState) : Prop :=
  (st.activeStreams.map Prod.fst).Nodup ∧
  (st.activeStreamsMeta.map Prod.fst).Nodup ∧
  (st.pendingQuestions.map Prod.fst).Nodup

theorem routerStep_goodKeys (env : RouterEnv) (st : RouterState)
    (e : RouterEvent) (h : goodKeys st) : goodKeys (routerStep env st e).1 := by
  obtain ⟨h1, h2, h3⟩ := h
  cases e with
  | inbound msg now =>
      show goodKeys (handleInbound env st msg now).1
      unfold handleInbound
      cases hq : getKV st.pendingQuestions (peerKey msg.channel msg.peerId) with
      | some h0 =>
          simp only [hq]
          exact ⟨h1, h2, nodup_keys_eraseKV _ _ h3⟩
      | none =>
          simp only [hq]
          split
          · exact ⟨h1, h2, h3⟩
          · split
            · exact ⟨h1, h2, h3⟩
            · split
              · exact ⟨h1, h2, h3⟩
              · exact ⟨nodup_keys_setKV _ _ _ h1, nodup_keys_setKV _ _ _ h2, h3⟩
  | turnDone ch peer =>
      exact ⟨nodup_keys_eraseKV _ _ h1, nodup_keys_eraseKV _ _ h2,
        nodup_keys_eraseKV _ _ h3⟩

theorem runRouter_goodKeys (env : RouterEnv) :
    ∀ (trace : List RouterEvent) (st : RouterState),
      goodKeys st → goodKeys (runRouter env st trace).1 := by
  intro trace
  induction trace with
  | nil => intro st h; exact h
  | cons e rest ih =>
      intro st h
      exact ih _ (routerStep_goodKeys env st e h)

/-- C4 (amended): the tracking maps are keyed by peer, so at most one
active-turn record exists per peer key at any instant; but a second
non-command inbound message for a busy peer is neither queued nor rejected
— the router starts another concurrent turn and simply overwrites the
peer's tracking record with the new turn's session id. -/
theorem active_turn_record_tracking :
    (∀ (env : RouterEnv) (trace : List RouterEvent),
      (((runRouter env initRouterState trace).1.activeStreams).map Prod.fst).Nodup) ∧
    (∀ (env : RouterEnv) (st : RouterState) (msg : InboundMessage) (now : Nat),
      getKV st.pendingQuestions (peerKey msg.channel msg.peerId) = none →
      env.hasAdapter msg.channel = true →
      checkAllowlist env msg = true →
      parseCommand msg.text = none →
      startTurnCount (peerKey msg.channel msg.peerId)
          (handleInbound env st msg now).2 = 1 ∧
      getKV (handleInbound env st msg now).1.activeStreams
          (peerKey msg.channel msg.peerId) =
        some (env.resolveSessionId (conversationKey msg))) := by
  constructor
  · intro env trace
    exact (runRouter_goodKeys env trace initRouterState
      ⟨List.nodup_nil, List.nodup_nil, List.nodup_nil⟩).1
  · intro env st msg now hq hA hW hC
    unfold handleInbound
    simp only [hq, hA, hW, hC]
    constructor
    · unfold startTurnCount
      cases hT : env.hasSendTyping msg.channel <;> simp [hT]
    · exact getKV_setKV_self _ _ _

/-- C4 witness for `active_turn_record_tracking`: the invariant on a
concrete two-message trace, and a concrete non-command message starting
exactly one turn. -/
theorem active_turn_record_tracking_witness :
    (((runRouter demoEnv initRouterState
        [.inbound demoMsgA 100, .inbound demoMsgB 200]).1.activeStreams).map
          Prod.fst).Nodup ∧
    startTurnCount (peerKey demoMsgA.channel demoMsgA.peerId)
        (handleInbound demoEnv initRouterState demoMsgA 100).2 = 1 :=
  ⟨active_turn_record_tracking.1 demoEnv [.inbound demoMsgA 100, .inbound demoMsgB 200],
   (active_turn_record_tracking.2 demoEnv initRouterState demoMsgA 100
      (by decide) (by decide) (by decide) (by decide)).1⟩

/-- C4 counterexample: with peer `telegram:alice` still busy (its record is
live after the first message and no turn has finished), a second
non-command message starts a second concurrent turn — the trace contains
two `startTurn` actions for the same peer key. -/
theorem second_message_starts_second_turn :
    getKV ((runRouter demoEnv initRouterState
        [.inbound demoMsgA 100]).1.activeStreams) "telegram:alice" =
      some "sess-1" ∧
    startTurnCount "telegram:alice"
      ((runRouter demoEnv initRouterState
        [.inbound demoMsgA 100, .inbound demoMsgB 200]).2) = 2 := by
  constructor
  · rfl
  · rfl

/-! ## C7: exactly one of question reply / rejection -/

/-- C7: for a question event matching the target session, the engine
continues consuming and forwards exactly one of a reply or a rejection:
the returned answers when an `onQuestion` callback is provided and
resolves, a rejection when it throws or when no callback is provided. -/
theorem question_reply_xor_reject (sid : String) (cfg : EngineCfg)
    (st : EngineState) (t : Nat) (req : QuestionReq)
    (h : req.sessionID = sid) :
    ∃ st2 acts, stepEvent sid cfg st ⟨t, .questionAsked req⟩ = .next st2 acts ∧
      questionReplyCount acts + questionRejectCount acts = 1 ∧
      (∀ f answers, cfg.onQuestion = some f → f req = .ok answers →
        acts = [.questionReply req.id answers]) ∧
      (cfg.onQuestion = none → acts = [.questionReject req.id]) ∧
      (∀ f err, cfg.onQuestion = some f → f req = .error err →
        acts = [.questionReject req.id]) := by
  dsimp only [stepEvent]
  rw [if_neg (by simp [h])]
  rcases hq : cfg.onQuestion with _ | f0
  · refine ⟨st, [.questionReject req.id], rfl, rfl, ?_, fun _ => rfl, ?_⟩
    · intro f answers hf
      cases hf
    · intro f err hf
      cases hf
  · dsimp only
    rcases hr : f0 req with err0 | answers0
    · refine ⟨st, [.questionReject req.id], rfl, rfl, ?_, ?_, fun _ _ _ _ => rfl⟩
      · intro f answers hf hok
        injection hf with hf
        rw [hf] at hr
        rw [hr] at hok
        cases hok
      · intro hn
        cases hn
    · refine ⟨{ st with lastActivityTime := t },
        [.questionReply req.id answers0], rfl, rfl, ?_, ?_, ?_⟩
      · intro f answers hf hok
        injection hf with hf
        rw [hf] at hr
        rw [hr] at hok
        injection hok with hok
        rw [hok]
      · intro hn
        cases hn
      · intro f err hf herr
        injection hf with hf
        rw [hf] at hr
        rw [hr] at herr
        cases herr

/-- C7 witness: a resolving callback forwards its answers (and exactly one
question action is emitted). -/
theorem question_reply_xor_reject_witness :
    ∃ st2 acts,
      stepEvent "s"
          { onToolRunning := false,
            onQuestion := some (fun _ => .ok [["yes"]]),
            onTodoUpdated := false, toolThrottleMs := 5000,
            heartbeatMs := 60000 }
          (initEngineState 0) ⟨4, .questionAsked ⟨"s", "q1", []⟩⟩ =
        .next st2 acts ∧
      questionReplyCount acts + questionRejectCount acts = 1 ∧
      (∀ f answers,
        ({ onToolRunning := false,
           onQuestion := some (fun _ => .ok [["yes"]]),
           onTodoUpdated := false, toolThrottleMs := 5000,
           heartbeatMs := 60000 } : EngineCfg).onQuestion = some f →
        f ⟨"s", "q1", []⟩ = .ok answers →
        acts = [.questionReply "q1" answers]) ∧
      (({ onToolRunning := false,
          onQuestion := some (fun _ => .ok [["yes"]]),
          onTodoUpdated := false, toolThrottleMs := 5000,
          heartbeatMs := 60000 } : EngineCfg).onQuestion = none →
        acts = [.questionReject "q1"]) ∧
      (∀ f err,
        ({ onToolRunning := false,
           onQuestion := some (fun _ => .ok [["yes"]]),
           onTodoUpdated := false, toolThrottleMs := 5000,
           heartbeatMs := 60000 } : EngineCfg).onQuestion = some f →
        f ⟨"s", "q1", []⟩ = .error err →
        acts = [.questionReject "q1"]) :=
  question_reply_xor_reject "s" _ (initEngineState 0) 4 ⟨"s", "q1", []⟩ rfl

/-! ## C9: a throttle-blocked tool event is dropped outright -/

/-- C9: a tool "running" event arriving within `toolThrottleMs` of the last
notification is dropped outright — the state is unchanged (in particular
the call id is not marked notified) and no action is emitted, there being
no deferred notification in the engine — and the same call id still
notifies if it emits another running event once the window has passed. -/
theorem throttled_tool_event_dropped (sid : String) (cfg : EngineCfg)
    (st : EngineState) (t : Nat) (partId callID tool : String)
    (title : Option String)
    (hcb : cfg.onToolRunning = true)
    (hnew : callID ∉ st.notifiedTools)
    (hthr : (t : Int) - st.lastToolNotifyTime < cfg.toolThrottleMs) :
    stepEvent sid cfg st
        ⟨t, .partUpdated (.tool sid partId callID tool ⟨.running, title⟩)⟩ =
      .next st [] ∧
    (∀ t2 : Nat, cfg.toolThrottleMs ≤ (t2 : Int) - st.lastToolNotifyTime →
      stepEvent sid cfg st
          ⟨t2, .partUpdated (.tool sid partId callID tool ⟨.running, title⟩)⟩ =
        .next { st with
                  notifiedTools := callID :: st.notifiedTools,
                  lastToolNotifyTime := (t2 : Int),
                  lastActivityTime := t2 }
          [.toolNotify t2 callID tool (toolTitle ⟨.running, title⟩ tool)]) := by
  constructor
  · dsimp only [stepEvent]
    rw [if_neg (by simp), if_pos ⟨rfl, hcb⟩,
      if_neg (fun hc => absurd hc.2 (not_le.2 hthr))]
  · intro t2 hle
    dsimp only [stepEvent]
    rw [if_neg (by simp), if_pos ⟨rfl, hcb⟩, if_pos ⟨hnew, hle⟩]

/-- C9 witness: with the last notification at 10000 and a 5000ms throttle,
a running event at 12000 is dropped and the same call notifies at 20000. -/
theorem throttled_tool_event_dropped_witness :
    stepEvent "s"
        { onToolRunning := true, onQuestion := none, onTodoUpdated := false,
          toolThrottleMs := 5000, heartbeatMs := 60000 }
        { textParts := [], notifiedTools := [], lastToolNotifyTime := 10000,
          lastActivityTime := 0 }
        ⟨12000, .partUpdated (.tool "s" "i1" "c1" "bash" ⟨.running, none⟩)⟩ =
      .next
        { textParts := [], notifiedTools := [], lastToolNotifyTime := 10000,
          lastActivityTime := 0 } [] ∧
    (∀ t2 : Nat, (5000 : Int) ≤ (t2 : Int) - (10000 : Int) →
      stepEvent "s"
          { onToolRunning := true, onQuestion := none, onTodoUpdated := false,
            toolThrottleMs := 5000, heartbeatMs := 60000 }
          { textParts := [], notifiedTools := [], lastToolNotifyTime := 10000,
            lastActivityTime := 0 }
          ⟨t2, .partUpdated (.tool "s" "i1" "c1" "bash" ⟨.running, none⟩)⟩ =
        .next
          { textParts := [], notifiedTools := ["c1"],
            lastToolNotifyTime := (t2 : Int), lastActivityTime := t2 }
          [.toolNotify t2 "c1" "bash" (toolTitle ⟨.running, none⟩ "bash")]) :=
  throttled_tool_event_dropped "s" _ _ 12000 "i1" "c1" "bash" none rfl
    (by decide) (by decide)

/-! ## C1: timeout outcome and the single timed-out message -/

theorem stepEvent_next_of_not_terminal (sid : String) (cfg : EngineCfg)
    (st : EngineState) (e : TimedEvent)
    (hE : errorHits sid e.ev = false) (hI : idleHits sid e.ev = false) :
    ∃ st2 acts, stepEvent sid cfg st e = .next st2 acts := by
  obtain ⟨t, ev⟩ := e
  cases ev with
  | partDelta s p d =>
      dsimp only [stepEvent]
      split
      · exact ⟨_, _, rfl⟩
      · exact ⟨_, _, rfl⟩
  | partUpdated p =>
      dsimp only [stepEvent]
      cases p with
      | text s i txt =>
          dsimp only
          split
          · exact ⟨_, _, rfl⟩
          · split
            · exact ⟨_, _, rfl⟩
            · exact ⟨_, _, rfl⟩
      | tool s i c tl tstate =>
          dsimp only
          split
          · exact ⟨_, _, rfl⟩
          · split
            · split
              · exact ⟨_, _, rfl⟩
              · exact ⟨_, _, rfl⟩
            · exact ⟨_, _, rfl⟩
      | otherPart s => exact ⟨_, _, rfl⟩
  | questionAsked req =>
      dsimp only [stepEvent]
      split
      · exact ⟨_, _, rfl⟩
      · cases cfg.onQuestion with
        | none => exact ⟨_, _, rfl⟩
        | some f =>
            dsimp only
            cases f req with
            | error e0 => exact ⟨_, _, rfl⟩
            | ok a0 => exact ⟨_, _, rfl⟩
  | todoUpdated s todos =>
      dsimp only [stepEvent]
      split
      · exact ⟨_, _, rfl⟩
      · split
        · exact ⟨_, _, rfl⟩
        · exact ⟨_, _, rfl⟩
  | sessionError sOpt err =>
      cases sOpt with
      | none =>
          exfalso
          simp [errorHits] at hE
      | some s =>
          dsimp only [stepEvent]
          by_cases hc : s ≠ "" ∧ s ≠ sid
          · rw [if_pos hc]
            exact ⟨_, _, rfl⟩
          · exfalso
            simp only [errorHits, if_neg hc] at hE
            cases hE
  | sessionIdle s =>
      have hs : s ≠ sid := by
        intro h0
        simp [idleHits, h0] at hI
      dsimp only [stepEvent]
      rw [if_pos hs]
      exact ⟨_, _, rfl⟩
  | otherEvent => exact ⟨_, _, rfl⟩

theorem runEngine_timeout (sessionId : String) (deadline : Nat)
    (cfg : EngineCfg) :
    ∀ (evs : List TimedEvent) (st : EngineState) (acts : List EngAction),
      (∀ e ∈ evs, errorHits sessionId e.ev = false ∧ idleHits sessionId e.ev = false) →
      (∃ e ∈ evs, deadline ≤ e.time) →
      (runEngine sessionId deadline cfg evs st acts).1 = .timeout := by
  intro evs
  induction evs with
  | nil =>
      intro st acts _ hl
      exact absurd hl (by simp)
  | cons e rest ih =>
      intro st acts hterm hl
      by_cases hd : deadline ≤ e.time
      · simp only [runEngine, if_pos hd]
      · obtain ⟨st2, acts2, hstep⟩ :=
          stepEvent_next_of_not_terminal sessionId cfg st e
            (hterm e (List.mem_cons_self e rest)).1
            (hterm e (List.mem_cons_self e rest)).2
        simp only [runEngine, if_neg hd, hstep]
        apply ih
        · intro x hx
          exact hterm x (List.mem_cons_of_mem _ hx)
        · rcases hl with ⟨x, hx, hxt⟩
          rcases List.mem_cons.1 hx with h0 | hx2
          · exact absurd (h0 ▸ hxt) hd
          · exact ⟨x, hx2, hxt⟩

/-- C1: on an event sequence that never carries a terminal (idle or
applicable error) event for the target session but extends past the
deadline, the engine finishes with the timeout outcome — in particular it
never returns accumulated text as a success — and the router's delivery of
a timeout outcome is exactly one send carrying the fixed timed-out
message. -/
theorem engine_timeout_router_single_message (sessionId promptText : String)
    (timeoutMs t0 : Nat) (progress : Option ProgressOptions)
    (evs : List TimedEvent) (msg : InboundMessage)
    (hterm : ∀ e ∈ evs,
      errorHits sessionId e.ev = false ∧ idleHits sessionId e.ev = false)
    (hlate : ∃ e ∈ evs, t0 + timeoutMs ≤ e.time) :
    (promptStreaming sessionId promptText timeoutMs progress t0 evs).1 = .timeout ∧
    (∀ text,
      (promptStreaming sessionId promptText timeoutMs progress t0 evs).1 ≠ .ok text) ∧
    deliverOutcome msg .timeout =
      [(msg.peerId,
        ⟨"Request timed out. The agent took too long to respond.",
         msg.threadId, msg.replyToId⟩)] := by
  have main :
      (promptStreaming sessionId promptText timeoutMs progress t0 evs).1 = .timeout :=
    runEngine_timeout sessionId (t0 + timeoutMs) (cfgOf progress) evs
      (initEngineState t0) [] hterm hlate
  refine ⟨main, ?_, rfl⟩
  intro text h
  rw [main] at h
  cases h

/-- C1 witness: a run whose only event arrives after the deadline (with no
terminal event ever) times out, and the timed-out delivery is one fixed
message. -/
theorem engine_timeout_router_single_message_witness :
    (promptStreaming "s" "p" 1000 none 0
      [⟨500, .partDelta "s" "p1" "partial"⟩,
       ⟨2000, .partDelta "s" "p1" " more"⟩]).1 = .timeout ∧
    (∀ text,
      (promptStreaming "s" "p" 1000 none 0
        [⟨500, .partDelta "s" "p1" "partial"⟩,
         ⟨2000, .partDelta "s" "p1" " more"⟩]).1 ≠ .ok text) ∧
    deliverOutcome demoMsgA .timeout =
      [(demoMsgA.peerId,
        ⟨"Request timed out. The agent took too long to respond.",
         demoMsgA.threadId, demoMsgA.replyToId⟩)] :=
  engine_timeout_router_single_message "s" "p" 1000 0 none _ demoMsgA
    (by decide) (by decide)

/-! ## C3: final text assembly on idle termination -/

theorem stepEvent_textParts (sid : String) (cfg : EngineCfg)
    (st : EngineState) (e : TimedEvent)
    (hne : emptyTextUpdate sid e.ev = false) :
    ∀ st2 acts, stepEvent sid cfg st e = .next st2 acts →
      st2.textParts = specUpdateParts sid e.ev st.textParts := by
  obtain ⟨t, ev⟩ := e
  intro st2 acts hst
  cases ev with
  | partDelta s p d =>
      dsimp only [stepEvent] at hst
      dsimp only [specUpdateParts]
      by_cases h : s = sid
      · rw [if_neg (by simp [h])] at hst
        rw [if_pos h]
        injection hst with h1 _
        rw [← h1]
      · rw [if_pos h] at hst
        rw [if_neg h]
        injection hst with h1 _
        rw [← h1]
  | partUpdated p =>
      cases p with
      | text s i txt =>
          dsimp only [stepEvent] at hst
          dsimp only [specUpdateParts]
          by_cases h : s = sid
          · rw [if_neg (by simp [h])] at hst
            have htxt : txt ≠ "" := by
              intro h0
              simp [emptyTextUpdate, h, h0] at hne
            rw [if_pos htxt] at hst
            rw [if_pos h]
            injection hst with h1 _
            rw [← h1]
          · rw [if_pos h] at hst
            rw [if_neg h]
            injection hst with h1 _
            rw [← h1]
      | tool s i c tl tstate =>
          dsimp only [stepEvent] at hst
          dsimp only [specUpdateParts]
          by_cases h : s ≠ sid
          · rw [if_pos h] at hst
            injection hst with h1 _
            rw [← h1]
          · rw [if_neg h] at hst
            by_cases h2 : tstate.status = ToolStatus.running ∧ cfg.onToolRunning = true
            · rw [if_pos h2] at hst
              by_cases h3 : c ∉ st.notifiedTools ∧
                  cfg.toolThrottleMs ≤ (t : Int) - st.lastToolNotifyTime
              · rw [if_pos h3] at hst
                injection hst with h1 _
                rw [← h1]
              · rw [if_neg h3] at hst
                injection hst with h1 _
                rw [← h1]
            · rw [if_neg h2] at hst
              injection hst with h1 _
              rw [← h1]
      | otherPart s =>
          dsimp only [stepEvent] at hst
          dsimp only [specUpdateParts]
          injection hst with h1 _
          rw [← h1]
  | questionAsked req =>
      dsimp only [stepEvent] at hst
      dsimp only [specUpdateParts]
      by_cases h : req.sessionID ≠ sid
      · rw [if_pos h] at hst
        injection hst with h1 _
        rw [← h1]
      · rw [if_neg h] at hst
        cases hq : cfg.onQuestion with
        | none =>
            rw [hq] at hst
            injection hst with h1 _
            rw [← h1]
        | some f =>
            rw [hq] at hst
            dsimp only at hst
            cases hr : f req with
            | error e0 =>
                rw [hr] at hst
                injection hst with h1 _
                rw [← h1]
            | ok a0 =>
                rw [hr] at hst
                injection hst with h1 _
                rw [← h1]
  | todoUpdated s todos =>
      dsimp only [stepEvent] at hst
      dsimp only [specUpdateParts]
      by_cases h : s ≠ sid
      · rw [if_pos h] at hst
        injection hst with h1 _
        rw [← h1]
      · rw [if_neg h] at hst
        by_cases h2 : cfg.onTodoUpdated = true
        · rw [if_pos h2] at hst
          injection hst with h1 _
          rw [← h1]
        · rw [if_neg h2] at hst
          injection hst with h1 _
          rw [← h1]
  | sessionError sOpt err =>
      dsimp only [specUpdateParts]
      cases sOpt with
      | none =>
          dsimp only [stepEvent] at hst
          unfold sessionErrorResult at hst
          cases err with
          | none => cases hst
          | some info =>
              dsimp only at hst
              split at hst <;> cases hst
      | some s =>
          dsimp only [stepEvent] at hst
          by_cases h : s ≠ "" ∧ s ≠ sid
          · rw [if_pos h] at hst
            injection hst with h1 _
            rw [← h1]
          · rw [if_neg h] at hst
            unfold sessionErrorResult at hst
            cases err with
            | none => cases hst
            | some info =>
                dsimp only at hst
                split at hst <;> cases hst
  | sessionIdle s =>
      dsimp only [stepEvent] at hst
      dsimp only [specUpdateParts]
      by_cases h : s ≠ sid
      · rw [if_pos h] at hst
        injection hst with h1 _
        rw [← h1]
      · rw [if_neg h] at hst
        cases hst
  | otherEvent =>
      dsimp only [stepEvent] at hst
      dsimp only [specUpdateParts]
      injection hst with h1 _
      rw [← h1]

theorem runEngine_ok_text (sessionId : String) (deadline : Nat)
    (cfg : EngineCfg) :
    ∀ (evs : List TimedEvent) (st : EngineState) (acts : List EngAction),
      (∀ e ∈ evs, e.time < deadline) →
      (∀ e ∈ evs, errorHits sessionId e.ev = false) →
      (∀ e ∈ evs, emptyTextUpdate sessionId e.ev = false) →
      (runEngine sessionId deadline cfg evs st acts).1 =
        .ok (String.intercalate ""
          (((evs.takeWhile (fun e => ! idleHits sessionId e.ev)).foldl
              (fun parts e => specUpdateParts sessionId e.ev parts)
              st.textParts).map Prod.snd)) := by
  intro evs
  induction evs with
  | nil =>
      intro st acts _ _ _
      simp [runEngine, joinedText]
  | cons e rest ih =>
      intro st acts h1 h2 h3
      have hd : ¬ deadline ≤ e.time := not_le.2 (h1 e (List.mem_cons_self e rest))
      by_cases hI : idleHits sessionId e.ev = true
      · obtain ⟨t, ev⟩ := e
        cases ev with
        | sessionIdle s =>
            have hs : s = sessionId := by
              by_cases h0 : s = sessionId
              · exact h0
              · simp [idleHits, h0] at hI
            simp only [runEngine, if_neg hd, stepEvent, hs, ne_eq,
              not_true_eq_false, if_false, joinedText]
            rw [List.takeWhile_cons_of_neg (by simp [idleHits])]
            rfl
        | partDelta s p d => simp [idleHits] at hI
        | partUpdated p => simp [idleHits] at hI
        | questionAsked req => simp [idleHits] at hI
        | todoUpdated s todos => simp [idleHits] at hI
        | sessionError sOpt err => simp [idleHits] at hI
        | otherEvent => simp [idleHits] at hI
      · have hIf : idleHits sessionId e.ev = false := by
          cases h0 : idleHits sessionId e.ev
          · rfl
          · exact absurd h0 hI
        obtain ⟨st2, acts2, hstep⟩ :=
          stepEvent_next_of_not_terminal sessionId cfg st e
            (h2 e (List.mem_cons_self e rest)) hIf
        have htp : st2.textParts = specUpdateParts sessionId e.ev st.textParts :=
          stepEvent_textParts sessionId cfg st e
            (h3 e (List.mem_cons_self e rest)) st2 acts2 hstep
        simp only [runEngine, if_neg hd, hstep]
        rw [ih st2 (acts ++ acts2)
          (fun x hx => h1 x (List.mem_cons_of_mem _ hx))
          (fun x hx => h2 x (List.mem_cons_of_mem _ hx))
          (fun x hx => h3 x (List.mem_cons_of_mem _ hx))]
        rw [List.takeWhile_cons_of_pos (by simp [hIf])]
        rw [List.foldl_cons, htp]

/-- C3 (amended): a run that terminates successfully (no applicable error
event, every event before the deadline) returns the per-part authoritative
values — text-updates overwrite their part (the run carrying no empty text
updates, which the engine's truthiness guard skips), deltas append — in
first-observed order, concatenated directly with NO separator between
parts (the source joins with the empty string, not with blank lines). -/
theorem final_text_concatenates_parts (sessionId promptText : String)
    (timeoutMs t0 : Nat) (progress : Option ProgressOptions)
    (evs : List TimedEvent)
    (hin : ∀ e ∈ evs, e.time < t0 + timeoutMs)
    (herr : ∀ e ∈ evs, errorHits sessionId e.ev = false)
    (hne : ∀ e ∈ evs, emptyTextUpdate sessionId e.ev = false) :
    (promptStreaming sessionId promptText timeoutMs progress t0 evs).1 =
      .ok (String.intercalate ""
        ((specParts sessionId (beforeIdle sessionId evs)).map Prod.snd)) := by
  have h := runEngine_ok_text sessionId (t0 + timeoutMs) (cfgOf progress) evs
    (initEngineState t0) [] hin herr hne
  exact h

/-- C3 witness for `final_text_concatenates_parts`: two text parts and an
idle event yield the direct concatenation. -/
theorem final_text_concatenates_parts_witness :
    (promptStreaming "s" "p" 1000 none 0
      [⟨1, .partUpdated (.text "s" "p1" "A")⟩,
       ⟨2, .partUpdated (.text "s" "p2" "B")⟩,
       ⟨3, .sessionIdle "s"⟩]).1 =
      .ok (String.intercalate ""
        ((specParts "s" (beforeIdle "s"
          [⟨1, .partUpdated (.text "s" "p1" "A")⟩,
           ⟨2, .partUpdated (.text "s" "p2" "B")⟩,
           ⟨3, .sessionIdle "s"⟩])).map Prod.snd)) :=
  final_text_concatenates_parts "s" "p" 1000 0 none _
    (by decide) (by decide) (by decide)

/-- C3 counterexample: a run producing two parts `"A"` and `"B"` finishes
with `"AB"`, not the blank-line join `"A\n\nB"` the claim states. -/
theorem final_text_not_blank_line_joined :
    (promptStreaming "s" "p" 1000 none 0
      [⟨1, .partUpdated (.text "s" "p1" "A")⟩,
       ⟨2, .partUpdated (.text "s" "p2" "B")⟩,
       ⟨3, .sessionIdle "s"⟩]).1 = .ok "AB" ∧
    (promptStreaming "s" "p" 1000 none 0
      [⟨1, .partUpdated (.text "s" "p1" "A")⟩,
       ⟨2, .partUpdated (.text "s" "p2" "B")⟩,
       ⟨3, .sessionIdle "s"⟩]).1 ≠
      .ok (String.intercalate "\n\n"
        ((specParts "s" (beforeIdle "s"
          [⟨1, .partUpdated (.text "s" "p1" "A")⟩,
           ⟨2, .partUpdated (.text "s" "p2" "B")⟩,
           ⟨3, .sessionIdle "s"⟩])).map Prod.snd)) := by
  constructor
  · decide
  · decide

/-! ## C5: tool notifications are deduplicated and globally throttled -/

theorem toolNotifies_append (a b : List EngAction) :
    toolNotifies (a ++ b) = toolNotifies a ++ toolNotifies b := by
  induction a with
  | nil => rfl
  | cons x rest ih => cases x <;> simp [toolNotifies, ih]

theorem sessionErrorResult_done (err : Option SessionErrorInfo) :
    ∃ o, sessionErrorResult err = .done o [] := by
  cases err with
  | none => exact ⟨_, rfl⟩
  | some info =>
      unfold sessionErrorResult
      dsimp only
      by_cases h : info.name = some "MessageAbortedError"
      · rw [if_pos h]
        exact ⟨_, rfl⟩
      · rw [if_neg h]
        exact ⟨_, rfl⟩

/-- How one step affects the tool-notification state: either it leaves the
dedup set, the last-notify time and the notification trace untouched; or it
terminates without notifications; or it is the notify branch, which fires
only for an unseen call id outside the throttle window and records both. -/
theorem stepEvent_tool_effects (sid : String) (cfg : EngineCfg)
    (st : EngineState) (e : TimedEvent) :
    (∃ st2 acts2, stepEvent sid cfg st e = .next st2 acts2 ∧
       toolNotifies acts2 = [] ∧ st2.notifiedTools = st.notifiedTools ∧
       st2.lastToolNotifyTime = st.lastToolNotifyTime) ∨
    (∃ o acts2, stepEvent sid cfg st e = .done o acts2 ∧ toolNotifies acts2 = []) ∨
    (∃ c tool title,
       stepEvent sid cfg st e =
         .next { st with notifiedTools := c :: st.notifiedTools,
                         lastToolNotifyTime := (e.time : Int),
                         lastActivityTime := e.time }
           [.toolNotify e.time c tool title] ∧
       c ∉ st.notifiedTools ∧
       cfg.toolThrottleMs ≤ (e.time : Int) - st.lastToolNotifyTime) := by
  obtain ⟨t, ev⟩ := e
  cases ev with
  | partDelta s p d =>
      dsimp only [stepEvent]
      split
      · exact Or.inl ⟨_, _, rfl, rfl, rfl, rfl⟩
      · exact Or.inl ⟨_, _, rfl, rfl, rfl, rfl⟩
  | partUpdated p =>
      cases p with
      | text s i txt =>
          dsimp only [stepEvent]
          split
          · exact Or.inl ⟨_, _, rfl, rfl, rfl, rfl⟩
          · split
            · exact Or.inl ⟨_, _, rfl, rfl, rfl, rfl⟩
            · exact Or.inl ⟨_, _, rfl, rfl, rfl, rfl⟩
      | tool s i c tl tstate =>
          dsimp only [stepEvent]
          by_cases h : s ≠ sid
          · rw [if_pos h]
            exact Or.inl ⟨_, _, rfl, rfl, rfl, rfl⟩
          · rw [if_neg h]
            by_cases h2 : tstate.status = ToolStatus.running ∧ cfg.onToolRunning = true
            · rw [if_pos h2]
              by_cases h3 : c ∉ st.notifiedTools ∧
                  cfg.toolThrottleMs ≤ (t : Int) - st.lastToolNotifyTime
              · rw [if_pos h3]
                exact Or.inr (Or.inr ⟨c, tl, toolTitle tstate tl, rfl, h3.1, h3.2⟩)
              · rw [if_neg h3]
                exact Or.inl ⟨_, _, rfl, rfl, rfl, rfl⟩
            · rw [if_neg h2]
              exact Or.inl ⟨_, _, rfl, rfl, rfl, rfl⟩
      | otherPart s => exact Or.inl ⟨_, _, rfl, rfl, rfl, rfl⟩
  | questionAsked req =>
      dsimp only [stepEvent]
      split
      · exact Or.inl ⟨_, _, rfl, rfl, rfl, rfl⟩
      · cases cfg.onQuestion with
        | none => exact Or.inl ⟨_, _, rfl, rfl, rfl, rfl⟩
        | some f =>
            dsimp only
            cases f req with
            | error e0 => exact Or.inl ⟨_, _, rfl, rfl, rfl, rfl⟩
            | ok a0 => exact Or.inl ⟨_, _, rfl, rfl, rfl, rfl⟩
  | todoUpdated s todos =>
      dsimp only [stepEvent]
      split
      · exact Or.inl ⟨_, _, rfl, rfl, rfl, rfl⟩
      · split
        · exact Or.inl ⟨_, _, rfl, rfl, rfl, rfl⟩
        · exact Or.inl ⟨_, _, rfl, rfl, rfl, rfl⟩
  | sessionError sOpt err =>
      dsimp only [stepEvent]
      obtain ⟨o, ho⟩ := sessionErrorResult_done err
      cases sOpt with
      | none => exact Or.inr (Or.inl ⟨o, [], ho, rfl⟩)
      | some s =>
          dsimp only
          by_cases h : s ≠ "" ∧ s ≠ sid
          · rw [if_pos h]
            exact Or.inl ⟨_, _, rfl, rfl, rfl, rfl⟩
          · rw [if_neg h]
            exact Or.inr (Or.inl ⟨o, [], ho, rfl⟩)
  | sessionIdle s =>
      dsimp only [stepEvent]
      split
      · exact Or.inl ⟨_, _, rfl, rfl, rfl, rfl⟩
      · exact Or.inr (Or.inl ⟨_, [], rfl, rfl⟩)
  | otherEvent => exact Or.inl ⟨_, _, rfl, rfl, rfl, rfl⟩

/-- The invariant tying the notification trace to the engine's dedup set
and last-notify clock. -/
def ToolInv (cfg : EngineCfg) (st : EngineState)
    (ns : List (Nat × String)) : Prop :=
  (ns.map Prod.snd).Nodup ∧
  List.Chain' (fun a b => cfg.toolThrottleMs ≤ (b.1 : Int) - (a.1 : Int)) ns ∧
  (∀ p ∈ ns, p.2 ∈ st.notifiedTools) ∧
  (∀ p, ns.getLast? = some p → (p.1 : Int) = st.lastToolNotifyTime)

theorem runEngine_toolInv (sid : String) (deadline : Nat) (cfg : EngineCfg) :
    ∀ (evs : List TimedEvent) (st : EngineState) (acts : List EngAction),
      ToolInv cfg st (toolNotifies acts) →
      ((toolNotifies (runEngine sid deadline cfg evs st acts).2).map
          Prod.snd).Nodup ∧
      List.Chain' (fun a b => cfg.toolThrottleMs ≤ (b.1 : Int) - (a.1 : Int))
        (toolNotifies (runEngine sid deadline cfg evs st acts).2) := by
  intro evs
  induction evs with
  | nil =>
      intro st acts hinv
      exact ⟨hinv.1, hinv.2.1⟩
  | cons e rest ih =>
      intro st acts hinv
      by_cases hd : deadline ≤ e.time
      · simp only [runEngine, if_pos hd]
        exact ⟨hinv.1, hinv.2.1⟩
      · rcases stepEvent_tool_effects sid cfg st e with
          ⟨st2, acts2, hstep, hn, hset, htime⟩ |
          ⟨o, acts2, hstep, hn⟩ |
          ⟨c, tool, title, hstep, hnew, hle⟩
        · simp only [runEngine, if_neg hd, hstep]
          apply ih
          rw [toolNotifies_append, hn, List.append_nil]
          obtain ⟨i1, i2, i3, i4⟩ := hinv
          exact ⟨i1, i2, fun p hp => hset ▸ i3 p hp,
            fun p hp => htime ▸ i4 p hp⟩
        · simp only [runEngine, if_neg hd, hstep]
          rw [toolNotifies_append, hn, List.append_nil]
          exact ⟨hinv.1, hinv.2.1⟩
        · simp only [runEngine, if_neg hd, hstep]
          apply ih
          rw [toolNotifies_append]
          obtain ⟨i1, i2, i3, i4⟩ := hinv
          have hcn : c ∉ (toolNotifies acts).map Prod.snd := by
            intro hc
            rcases List.mem_map.1 hc with ⟨p, hp, hp2⟩
            exact hnew (hp2 ▸ i3 p hp)
          refine ⟨?_, ?_, ?_, ?_⟩
          · simp only [toolNotifies, List.map_append, List.map_cons,
              List.map_nil]
            rw [List.nodup_append]
            refine ⟨i1, List.nodup_singleton c, ?_⟩
            intro a ha hb
            rw [List.mem_singleton] at hb
            exact hcn (hb ▸ ha)
          · simp only [toolNotifies]
            apply List.Chain'.append i2 (List.chain'_singleton _)
            intro x hx y hy
            simp only [List.head?_cons, Option.mem_def, Option.some.injEq] at hy
            have hx2 := i4 x (by simpa using hx)
            rw [← hy]
            simp only
            rw [← hx2] at hle
            exact hle
          · intro p hp
            simp only [toolNotifies, List.mem_append, List.mem_cons,
              List.mem_singleton] at hp
            rcases hp with hp | hp | hp
            · exact List.mem_cons_of_mem _ (i3 p hp)
            · rw [hp]
              exact List.mem_cons_self _ _
            · cases hp
          · intro p hp
            simp only [toolNotifies] at hp
            rw [List.getLast?_concat] at hp
            cases hp
            rfl

/-- C5: over one engine run, `onToolRunning` fires at most once per
distinct tool call id — however many running events a call emits — and any
two invocations (adjacent or not: the throttle clock is global across all
tool calls) are separated by at least `toolThrottleMs`. -/
theorem tool_notifications_deduped_and_throttled (sessionId promptText : String)
    (timeoutMs t0 : Nat) (progress : Option ProgressOptions)
    (evs : List TimedEvent)
    (hthr : 0 ≤ (cfgOf progress).toolThrottleMs) :
    ((toolNotifies
        (promptStreaming sessionId promptText timeoutMs progress t0 evs).2).map
          Prod.snd).Nodup ∧
    List.Pairwise
      (fun a b => (cfgOf progress).toolThrottleMs ≤ (b.1 : Int) - (a.1 : Int))
      (toolNotifies
        (promptStreaming sessionId promptText timeoutMs progress t0 evs).2) := by
  have hinv0 : ToolInv (cfgOf progress) (initEngineState t0) (toolNotifies []) := by
    refine ⟨by simp [toolNotifies], by simp [toolNotifies], ?_, ?_⟩
    · intro p hp
      simp [toolNotifies] at hp
    · intro p hp
      simp [toolNotifies] at hp
  have h := runEngine_toolInv sessionId (t0 + timeoutMs) (cfgOf progress) evs
    (initEngineState t0) [] hinv0
  refine ⟨h.1, ?_⟩
  haveI : IsTrans (Nat × String)
      (fun a b => (cfgOf progress).toolThrottleMs ≤ (b.1 : Int) - (a.1 : Int)) :=
    ⟨fun a b c hab hbc => by
      have h0 := hthr
      omega⟩
  exact List.chain'_iff_pairwise.1 h.2

/-- C5 witness: a concrete run with two tool calls, the second throttled
then notified later. -/
theorem tool_notifications_deduped_and_throttled_witness :
    ((toolNotifies
        (promptStreaming "s" "p" 100000 (some { onToolRunning := true }) 10000
          [⟨10001, .partUpdated (.tool "s" "i1" "c1" "bash" ⟨.running, none⟩)⟩,
           ⟨10002, .partUpdated (.tool "s" "i2" "c2" "grep" ⟨.running, none⟩)⟩,
           ⟨20000, .partUpdated (.tool "s" "i2" "c2" "grep" ⟨.running, none⟩)⟩,
           ⟨20001, .sessionIdle "s"⟩]).2).map Prod.snd).Nodup ∧
    List.Pairwise
      (fun a b =>
        (cfgOf (some { onToolRunning := true })).toolThrottleMs ≤
          (b.1 : Int) - (a.1 : Int))
      (toolNotifies
        (promptStreaming "s" "p" 100000 (some { onToolRunning := true }) 10000
          [⟨10001, .partUpdated (.tool "s" "i1" "c1" "bash" ⟨.running, none⟩)⟩,
           ⟨10002, .partUpdated (.tool "s" "i2" "c2" "grep" ⟨.running, none⟩)⟩,
           ⟨20000, .partUpdated (.tool "s" "i2" "c2" "grep" ⟨.running, none⟩)⟩,
           ⟨20001, .sessionIdle "s"⟩]).2) :=
  tool_notifications_deduped_and_throttled "s" "p" 100000 10000
    (some { onToolRunning := true }) _ (by decide)

end OpencodeClaw
